import Mathlib

/-!
# Verification of the salesforce-updater-gcp repository

Shallow embedding of the repository's batch update processor, record
updater, work-order lookup path, CSV exporter/parser and JWT claim
construction, together with proofs of the specification's claims.

Strings manipulated character by character (the CSV code) are modelled as
`List Char`; other JS strings are modelled as `String`.
-/

namespace SalesforceUpdaterGCP

/-! ## CSV exporter (src/cloud/csv-exporter.js) and CSV line parser
    (extract-sassie-ids, src/unnamed/part_005) -/

/-- The set of characters removed by JavaScript's `String.prototype.trim`
(ECMAScript WhiteSpace and LineTerminator code points). -/
def isJsSpace (c : Char) : Bool :=
  c ∈ [' ', '\t', '\n', '\r', '\x0b', '\x0c', '\xa0',
       '\u1680', '\u2000', '\u2001', '\u2002', '\u2003', '\u2004', '\u2005',
       '\u2006', '\u2007', '\u2008', '\u2009', '\u200a', '\u2028', '\u2029',
       '\u202f', '\u205f', '\u3000', '\ufeff']

/-- JavaScript `s.trim()`: strip leading and trailing whitespace. -/
def jsTrim (l : List Char) : List Char :=
  ((l.dropWhile isJsSpace).reverse.dropWhile isJsSpace).reverse

/-- The condition of csv-exporter.js line 52: value contains a comma, a
quote, a newline or a carriage return. -/
def needsQuoting (v : List Char) : Bool :=
  v.contains ',' || v.contains '"' || v.contains '\n' || v.contains '\r'

/-- `value.replace(/"/g, '""')` from csv-exporter.js line 53. -/
def doubleQuotes (v : List Char) : List Char :=
  v.flatMap (fun c => if c = '"' then ['"', '"'] else [c])

/-- `CSVExporter.escapeCSVValue` (csv-exporter.js lines 50-56). -/
def escapeCSVValue (v : List Char) : List Char :=
  if needsQuoting v then '"' :: doubleQuotes v ++ ['"'] else v

/-- The loop of `parseCSVLine` (part_005 lines 303-328).  Arguments mirror
the JS locals: remaining input, `current`, `inQuotes`, `values`.  The
doubled-quote case consumes two characters (`i++` in the source); the
value pushed at a separator and at the end is `current.trim()`. -/
def parseCSVLineGo : List Char → List Char → Bool → List (List Char) → List (List Char)
  | [], current, _, values => values ++ [jsTrim current]
  | '"' :: '"' :: rest2, current, true, values =>
      parseCSVLineGo rest2 (current ++ ['"']) true values
  | '"' :: rest, current, true, values =>
      parseCSVLineGo rest current false values
  | '"' :: rest, current, false, values =>
      parseCSVLineGo rest current true values
  | ',' :: rest, current, false, values =>
      parseCSVLineGo rest [] false (values ++ [jsTrim current])
  | c :: rest, current, inQuotes, values =>
      parseCSVLineGo rest (current ++ [c]) inQuotes values

/-- `parseCSVLine` (part_005 lines 303-328): split one CSV line into its
field values, honouring quoting. -/
def parseCSVLine (line : List Char) : List (List Char) :=
  parseCSVLineGo line [] false []

/-- A JS value appearing in a record handed to `arrayToCSV`.  An `obj`
value carries the text `JSON.stringify` produces for it (the exporter
treats that serialization as opaque). -/
inductive CellValue
  | str (s : List Char)
  | obj (json : List Char)
  | null
  | undef
deriving DecidableEq

/-- A record (JS object) as seen by `arrayToCSV`: association list of
key/value pairs. -/
abbrev CsvRow := List (List Char × CellValue)

/-- `row[header]` : JS property access, `undefined` when the key is absent. -/
def rowGet (row : CsvRow) (key : List Char) : CellValue :=
  match row.lookup key with
  | some v => v
  | none => CellValue.undef

/-- csv-exporter.js lines 26-38: stringify nested objects, render
null/undefined as the empty string, `String(value)` otherwise. -/
def cellToString : CellValue → List Char
  | CellValue.obj j => j
  | CellValue.null => []
  | CellValue.undef => []
  | CellValue.str s => s

/-- One data row of `arrayToCSV` (csv-exporter.js lines 24-40). -/
def csvRowOf (headers : List (List Char)) (row : CsvRow) : List Char :=
  List.intercalate [','] (headers.map fun h => escapeCSVValue (cellToString (rowGet row h)))

/-- `CSVExporter.arrayToCSV` (csv-exporter.js lines 12-43).  `columns`
models the optional explicit column list (`null` in JS when absent; a JS
empty array is truthy, hence `some []` keeps the empty list). -/
def arrayToCSV (data : List CsvRow) (columns : Option (List (List Char))) : List Char :=
  match data with
  | [] => []
  | first :: _ =>
      let headers := match columns with
        | some cs => cs
        | none => first.map Prod.fst
      let csvHeader := List.intercalate [','] (headers.map escapeCSVValue)
      let csvRows := data.map (csvRowOf headers)
      List.intercalate ['\n'] (csvHeader :: csvRows)

/-! ## JWT bearer authentication (src/salesforce-auth-jwt.js) -/

/-- The constructor default for `loginUrl` (salesforce-auth-jwt.js line 14). -/
def defaultLoginUrl : String := "https://realitybasedgroup.my.salesforce.com"

/-- The configuration fields of `SalesforceAuthJWT` used by `createJWT`. -/
structure JWTAuthConfig where
  clientId : String
  username : String
  loginUrl : Option String
deriving DecidableEq

/-- `config.loginUrl || default` (line 14): the JS `||` falls back on the
default also for an empty string, which is falsy. -/
def configLoginUrl (c : JWTAuthConfig) : String :=
  match c.loginUrl with
  | some u => if u = "" then defaultLoginUrl else u
  | none => defaultLoginUrl

/-- The claim set of the signed assertion. -/
structure JWTClaims where
  iss : String
  sub : String
  aud : String
  exp : Nat
deriving DecidableEq

/-- The claims object built by `SalesforceAuthJWT.createJWT`
(salesforce-auth-jwt.js lines 41-46): `exp` is
`Math.floor(Date.now() / 1000) + 300`; `nowMs` models `Date.now()`. -/
def createJWTClaims (c : JWTAuthConfig) (nowMs : Nat) : JWTClaims :=
  { iss := c.clientId
    sub := c.username
    aud := configLoginUrl c
    exp := nowMs / 1000 + 300 }

/-- The signing algorithm passed to `jwt.sign` (line 56). -/
def jwtSignAlgorithm : String := "RS256"

/-! ## The Salesforce updater
(src/unnamed/part_000 `salesforce-updater-enhanced.js` and
src/unnamed/part_003 `salesforce-updater.js`; the two files define
identical `updateRecord` and `processUpdates`).

The network and the clock are modelled by an environment `Env`
parameterizing each operation: the result of the PATCH request for given
arguments, the result of the work-order lookup query, whether
`ensureAuthenticated` succeeds, and the ISO timestamp the code reads.
The instance state consists of the two accumulator arrays
`successfulUpdates` / `failedUpdates`; side effects on the network are
reported as an event list (`patchCall` for each issued `axios.patch`,
`delay` for each inter-batch pause). -/

/-- A field→value update map. -/
abbrev FieldMap := List (String × String)

/-- A metadata bag: JS object modelled as key / optional-value pairs
(`none` for a JS `undefined` property value); spread-extension appends. -/
abbrev Metadata := List (String × Option String)

/-- The `Related_Project__r` lookup fields selected by the SOQL query of
`lookupWorkOrderByNumber` (part_000 line 48). -/
structure RelatedProject where
  sassieSurveyName : Option String
  sassieSurveyId : Option String
  videoQID : Option String
  downloadVideoQID : Option String
deriving DecidableEq

/-- A `Work_Order__c` record as returned by the lookup query. -/
structure WorkOrderRec where
  id : String
  name : String
  sassieId : Option String
  relatedProject : Option RelatedProject
deriving DecidableEq

/-- Result of one `axios.patch` call: resolved with an HTTP status, or
rejected with a response (status and body `data`, plus the error
`message`), or rejected with no response (network-level failure). -/
inductive CallResult
  | ok (status : Nat)
  | httpErr (status : Nat) (data message : String)
  | netErr (message : String)
deriving DecidableEq

/-- Result of the lookup SOQL query (`this.query`): the record list, or a
rejection with/without an HTTP response. -/
inductive QueryResult
  | ok (records : List WorkOrderRec)
  | httpErr (status : Nat) (data message : String)
  | netErr (message : String)
deriving DecidableEq

/-- The environment: outcome of every external interaction. -/
structure Env where
  /-- `none` when `ensureAuthenticated()` resolves; `some msg` when it
  rejects with message `msg`. -/
  ensureAuth : Option String
  /-- Outcome of `axios.patch` for object type, record id, update data. -/
  patch : String → String → FieldMap → CallResult
  /-- Outcome of the work-order lookup query for a work order number
  (SOQL construction and quote escaping are folded into this map). -/
  queryWO : String → QueryResult
  /-- `new Date().toISOString()`. -/
  now : String

/-- The `status` field of an outcome: an HTTP status or one of the string
tags the source uses. -/
inductive StatusVal
  | http (code : Nat)
  /-- the string `"UNKNOWN"` -/
  | unknown
  /-- the string `"NOT_FOUND"` -/
  | notFound
  /-- the string `"ERROR"` -/
  | errorTag
deriving DecidableEq

/-- An update outcome as pushed on `successfulUpdates` / `failedUpdates`.
`workOrderNumber` is `none` for outcomes built by `updateRecord`, which
does not set that field. -/
structure Outcome where
  success : Bool
  workOrderNumber : Option String
  recordId : Option String
  objectType : String
  updateData : FieldMap
  metadata : Metadata
  timestamp : String
  error : Option String
  status : StatusVal
deriving DecidableEq

/-- The updater instance state: the two accumulator arrays. -/
structure UpdaterState where
  successfulUpdates : List Outcome
  failedUpdates : List Outcome
deriving DecidableEq

/-- Externally visible actions of a run: PATCH calls and inter-batch
delays. -/
inductive Event
  | patchCall (objectType recordId : String) (updateData : FieldMap)
  | delay (ms : Nat)
deriving DecidableEq

/-- JS `a || b` on strings: `b` when `a` is the empty string (falsy). -/
def jsOrStr (a b : String) : String :=
  if a = "" then b else a

/-- `SalesforceUpdater.updateRecord` (part_003 lines 30-72, identically
part_000 lines 144-188).  The try body awaits `ensureAuthenticated`, then
issues the PATCH; any rejection is caught and recorded as a failure
outcome (`error.response?.data || error.message`,
`error.response?.status || "UNKNOWN"`, where a JS `0` status is falsy). -/
def updateRecord (env : Env) (st : UpdaterState) (objectType recordId : String)
    (updateData : FieldMap) (metadata : Metadata) :
    Outcome × UpdaterState × List Event :=
  match env.ensureAuth with
  | some msg =>
      let failureResult : Outcome :=
        { success := false, workOrderNumber := none, recordId := some recordId,
          objectType := objectType, updateData := updateData, metadata := metadata,
          timestamp := env.now, error := some msg, status := StatusVal.unknown }
      (failureResult, { st with failedUpdates := st.failedUpdates ++ [failureResult] }, [])
  | none =>
    match env.patch objectType recordId updateData with
    | CallResult.ok status =>
        let result : Outcome :=
          { success := true, workOrderNumber := none, recordId := some recordId,
            objectType := objectType, updateData := updateData, metadata := metadata,
            timestamp := env.now, error := none, status := StatusVal.http status }
        (result, { st with successfulUpdates := st.successfulUpdates ++ [result] },
         [Event.patchCall objectType recordId updateData])
    | CallResult.httpErr s d m =>
        let failureResult : Outcome :=
          { success := false, workOrderNumber := none, recordId := some recordId,
            objectType := objectType, updateData := updateData, metadata := metadata,
            timestamp := env.now, error := some (jsOrStr d m),
            status := if s = 0 then StatusVal.unknown else StatusVal.http s }
        (failureResult, { st with failedUpdates := st.failedUpdates ++ [failureResult] },
         [Event.patchCall objectType recordId updateData])
    | CallResult.netErr m =>
        let failureResult : Outcome :=
          { success := false, workOrderNumber := none, recordId := some recordId,
            objectType := objectType, updateData := updateData, metadata := metadata,
            timestamp := env.now, error := some m, status := StatusVal.unknown }
        (failureResult, { st with failedUpdates := st.failedUpdates ++ [failureResult] },
         [Event.patchCall objectType recordId updateData])

/-- Outcome of `lookupWorkOrderByNumber` (part_000 lines 43-67): the first
record, `null` for an empty result, or the rethrown query error.  The
`query` helper (lines 19-36) awaits `ensureAuthenticated` first, so an
authentication rejection surfaces as a thrown error too. -/
inductive LookupOutcome
  | found (workOrder : WorkOrderRec)
  | notFoundNull
  | threwHttp (status : Nat) (data message : String)
  | threwNet (message : String)
deriving DecidableEq

/-- `SalesforceUpdater.lookupWorkOrderByNumber` (part_000 lines 43-67). -/
def lookupWorkOrderByNumber (env : Env) (workOrderNumber : String) : LookupOutcome :=
  match env.ensureAuth with
  | some msg => LookupOutcome.threwNet msg
  | none =>
    match env.queryWO workOrderNumber with
    | QueryResult.ok [] => LookupOutcome.notFoundNull
    | QueryResult.ok (r :: _) => LookupOutcome.found r
    | QueryResult.httpErr s d m => LookupOutcome.threwHttp s d m
    | QueryResult.netErr m => LookupOutcome.threwNet m

/-- The identifiers bound in the scope of `updateWorkOrderByNumber` at the
point where the metadata object for `updateRecord` is constructed
(part_000 lines 99-113): the function parameters, the local `workOrder`,
and the module-level bindings of the file. -/
def updateWOScope : List String :=
  ["workOrderNumber", "updateData", "metadata", "workOrder",
   "this", "axios", "SalesforceAuthJWT", "SalesforceUpdater", "require", "module"]

/-- JS evaluation of a bare identifier: a ReferenceError when the name is
not bound in any enclosing scope (optional chaining `name?.field` does not
prevent this, since the identifier itself is evaluated first). -/
def resolveIdent (name : String) : Except String Unit :=
  if updateWOScope.contains name then Except.ok () else Except.error (name ++ " is not defined")

/-- The metadata object of the `updateRecord` call in
`updateWorkOrderByNumber` (part_000 lines 103-112).  Properties are
evaluated in order.  The first five (`...metadata`, `workOrderNumber`,
`workOrderName`, `sassieId`, `sassieSurveyName`) only read the bound
locals `metadata`, `workOrderNumber` and `workOrder`.  The `sassieSurveyId`
property (line 109) reads the bare identifier `Related_Project__r`, which
is not in `updateWOScope`, so evaluation throws there; the
`sassieVideoQID` / `sassieDownloadQID` lines (110-111) read the same bare
identifier and are never reached.  The final `pure` records the fields the
lines would produce if the identifier resolved to `workOrder`'s lookup
field, and is unreachable. -/
def buildWOMetadata (metadata : Metadata) (workOrderNumber : String)
    (workOrder : WorkOrderRec) : Except String Metadata := do
  let base := metadata ++
    [("workOrderNumber", some workOrderNumber),
     ("workOrderName", some workOrder.name),
     ("sassieId", workOrder.sassieId),
     ("sassieSurveyName", workOrder.relatedProject.bind RelatedProject.sassieSurveyName)]
  let _ ← resolveIdent "Related_Project__r"
  let _ ← resolveIdent "Related_Project__r"
  let _ ← resolveIdent "Related_Project__r"
  pure (base ++
    [("sassieSurveyId", workOrder.relatedProject.bind RelatedProject.sassieSurveyId),
     ("sassieVideoQID", workOrder.relatedProject.bind RelatedProject.videoQID),
     ("sassieDownloadQID", workOrder.relatedProject.bind RelatedProject.downloadVideoQID)])

/-- `SalesforceUpdater.updateWorkOrderByNumber` (part_000 lines 76-134).
The try body looks the record up; a `null` lookup result produces the
`NOT_FOUND` failure (lines 81-96) without any update call; otherwise the
metadata construction for the nested `updateRecord` call throws (see
`buildWOMetadata`) and the catch (lines 114-133) records the failure with
`error.response?.data || error.message` and
`error.response?.status || "ERROR"`. -/
def updateWorkOrderByNumber (env : Env) (st : UpdaterState) (workOrderNumber : String)
    (updateData : FieldMap) (metadata : Metadata) :
    Outcome × UpdaterState × List Event :=
  match lookupWorkOrderByNumber env workOrderNumber with
  | LookupOutcome.notFoundNull =>
      let failureResult : Outcome :=
        { success := false, workOrderNumber := some workOrderNumber, recordId := none,
          objectType := "Work_Order__c", updateData := updateData, metadata := metadata,
          timestamp := env.now, error := some "Work Order not found",
          status := StatusVal.notFound }
      (failureResult, { st with failedUpdates := st.failedUpdates ++ [failureResult] }, [])
  | LookupOutcome.found workOrder =>
      match buildWOMetadata metadata workOrderNumber workOrder with
      | Except.ok md =>
          updateRecord env st "Work_Order__c" workOrder.id updateData md
      | Except.error msg =>
          let failureResult : Outcome :=
            { success := false, workOrderNumber := some workOrderNumber, recordId := none,
              objectType := "Work_Order__c", updateData := updateData, metadata := metadata,
              timestamp := env.now, error := some msg, status := StatusVal.errorTag }
          (failureResult, { st with failedUpdates := st.failedUpdates ++ [failureResult] }, [])
  | LookupOutcome.threwHttp s d m =>
      let failureResult : Outcome :=
        { success := false, workOrderNumber := some workOrderNumber, recordId := none,
          objectType := "Work_Order__c", updateData := updateData, metadata := metadata,
          timestamp := env.now, error := some (jsOrStr d m),
          status := if s = 0 then StatusVal.errorTag else StatusVal.http s }
      (failureResult, { st with failedUpdates := st.failedUpdates ++ [failureResult] }, [])
  | LookupOutcome.threwNet m =>
      let failureResult : Outcome :=
        { success := false, workOrderNumber := some workOrderNumber, recordId := none,
          objectType := "Work_Order__c", updateData := updateData, metadata := metadata,
          timestamp := env.now, error := some m, status := StatusVal.errorTag }
      (failureResult, { st with failedUpdates := st.failedUpdates ++ [failureResult] }, [])

/-! ## The batch processor (part_003 lines 83-130 `processUpdates`;
part_000 lines 199-253 `processWorkOrderUpdates`, lines 264-319
`processUpdates`) -/

/-- A by-record-id update request (`{ objectType, recordId, updateData,
metadata? }`). -/
structure UpdateReq where
  objectType : String
  recordId : String
  updateData : FieldMap
  metadata : Metadata
deriving DecidableEq

/-- A by-work-order-number update request (`{ workOrderNumber, updateData,
metadata? }`). -/
structure WOUpdateReq where
  workOrderNumber : String
  updateData : FieldMap
  metadata : Metadata
deriving DecidableEq

/-- The `options` argument: `const { batchSize = 5, delayMs = 100 } =
options`. -/
structure ProcessOptions where
  batchSize : Option Nat
  delayMs : Option Nat
deriving DecidableEq

/-- The destructured `batchSize` with its default of 5. -/
def optBatchSize (o : ProcessOptions) : Nat := o.batchSize.getD 5

/-- The destructured `delayMs` with its default of 100. -/
def optDelayMs (o : ProcessOptions) : Nat := o.delayMs.getD 100

/-- One batch: `batch.map(update => ...)` then `await
Promise.all(batchPromises)`.  Each item runs the given handler; the
cooperative concurrency of `Promise.all` is modelled by sequencing the
items in list order (each handler's outcome is independent of the
accumulator state, so scheduling only permutes the order of pushes within
the batch). -/
def processGroup (f : α → UpdaterState → Outcome × UpdaterState × List Event) :
    List α → UpdaterState → UpdaterState × List Event
  | [], st => (st, [])
  | r :: rest, st =>
      let x := f r st
      let y := processGroup f rest x.2.1
      (y.1, x.2.2 ++ y.2)

/-- The batch loop `for (let i = 0; i < updateList.length; i += batchSize)`
with `slice(i, i + batchSize)`.  A step takes the next `batchSize` items
(written `r :: rest.take (batchSize - 1)` so the recursion on
`rest.drop (batchSize - 1)` decreases for every `batchSize`; for
`batchSize ≥ 1` this equals `take`/`drop` of `batchSize` — the JS loop
does not terminate for `batchSize = 0`, so the model is only claimed
faithful for a positive batch size).  After each batch except the last,
and only when `delayMs > 0`, one `delay` event is emitted
(`if (i + batchSize < updateList.length && delayMs > 0)`). -/
def processBatchesGo (f : α → UpdaterState → Outcome × UpdaterState × List Event)
    (batchSize delayMs : Nat) : List α → UpdaterState → UpdaterState × List Event
  | [], st => (st, [])
  | r :: rest, st =>
      let g := processGroup f (r :: rest.take (batchSize - 1)) st
      let z := processBatchesGo f batchSize delayMs (rest.drop (batchSize - 1)) g.1
      (z.1,
       g.2 ++ (if (rest.drop (batchSize - 1)).isEmpty = false ∧ 0 < delayMs
               then [Event.delay delayMs] else []) ++ z.2)
termination_by l _ => l.length
decreasing_by simp [List.length_drop]; omega

/-- The value of the computed `successRate` string
`((successful / total) * 100).toFixed(2) + "%"`: JS produces `NaN` for
`0 / 0`, `Infinity` for a positive numerator over zero, and a finite
percentage otherwise (the exact `toFixed` rendering of the finite case is
kept symbolic as the numerator/denominator pair). -/
inductive SuccessRate
  | nan
  | infinite
  | ratio (successful total : Nat)
deriving DecidableEq

/-- The `successRate` computation of the results object. -/
def successRateOf (successful total : Nat) : SuccessRate :=
  if total = 0 then (if successful = 0 then SuccessRate.nan else SuccessRate.infinite)
  else SuccessRate.ratio successful total

/-- The `results` object built at the end of both batch processors
(part_003 lines 118-125). -/
structure BatchResults where
  totalProcessed : Nat
  successful : Nat
  failed : Nat
  successfulUpdates : List Outcome
  failedUpdates : List Outcome
  successRate : SuccessRate
deriving DecidableEq

/-- Assemble the results object from the final instance state. -/
def mkResults (totalLen : Nat) (st : UpdaterState) : BatchResults :=
  { totalProcessed := totalLen
    successful := st.successfulUpdates.length
    failed := st.failedUpdates.length
    successfulUpdates := st.successfulUpdates
    failedUpdates := st.failedUpdates
    successRate := successRateOf st.successfulUpdates.length totalLen }

/-- `SalesforceUpdater.processUpdates` (part_003 lines 83-130; identically
part_000 lines 264-319): reset the two tracking arrays (lines 89-90), run
the batch loop over `updateRecord`, and build the results object. -/
def processUpdates (env : Env) (_st : UpdaterState) (updateList : List UpdateReq)
    (options : ProcessOptions) : BatchResults × UpdaterState × List Event :=
  let st0 : UpdaterState := { successfulUpdates := [], failedUpdates := [] }
  let r := processBatchesGo
    (fun u s => updateRecord env s u.objectType u.recordId u.updateData u.metadata)
    (optBatchSize options) (optDelayMs options) updateList st0
  (mkResults updateList.length r.1, r.1, r.2)

/-- `SalesforceUpdater.processWorkOrderUpdates` (part_000 lines 199-253):
the same loop over `updateWorkOrderByNumber`. -/
def processWorkOrderUpdates (env : Env) (_st : UpdaterState)
    (updateList : List WOUpdateReq) (options : ProcessOptions) :
    BatchResults × UpdaterState × List Event :=
  let st0 : UpdaterState := { successfulUpdates := [], failedUpdates := [] }
  let r := processBatchesGo
    (fun u s => updateWorkOrderByNumber env s u.workOrderNumber u.updateData u.metadata)
    (optBatchSize options) (optDelayMs options) updateList st0
  (mkResults updateList.length r.1, r.1, r.2)

/-- `SalesforceUpdater.clearHistory` (part_003 lines 173-177). -/
def clearHistory (_st : UpdaterState) : UpdaterState :=
  { successfulUpdates := [], failedUpdates := [] }

/-- The contiguous groups the batch loop forms (same decomposition as
`processBatchesGo`). -/
def chunksOf (batchSize : Nat) : List α → List (List α)
  | [] => []
  | r :: rest => (r :: rest.take (batchSize - 1)) :: chunksOf batchSize (rest.drop (batchSize - 1))
termination_by l => l.length
decreasing_by simp [List.length_drop]; omega

/-- Group event lists joined with exactly one `delay` event between
consecutive groups and none after the last. -/
def withDelays (delayMs : Nat) : List (List Event) → List Event
  | [] => []
  | [g] => g
  | g :: g2 :: gs => g ++ [Event.delay delayMs] ++ withDelays delayMs (g2 :: gs)

/-- The events one `updateRecord` call emits: its PATCH call, unless
`ensureAuthenticated` rejects first. -/
def updateRecordEvents (env : Env) (objectType recordId : String)
    (updateData : FieldMap) : List Event :=
  match env.ensureAuth with
  | some _ => []
  | none => [Event.patchCall objectType recordId updateData]

/-! ## Helper lemmas -/

theorem parseCSVLineGo_other (c : Char) (rest cur : List Char) (values : List (List Char))
    (hc : c ≠ '"') :
    parseCSVLineGo (c :: rest) cur true values = parseCSVLineGo rest (cur ++ [c]) true values := by
  rw [parseCSVLineGo.eq_def]; split <;> simp_all

theorem parseCSVLineGo_open (rest cur : List Char) (values : List (List Char)) :
    parseCSVLineGo ('"' :: rest) cur false values = parseCSVLineGo rest cur true values := by
  rw [parseCSVLineGo.eq_def]
  split <;> try simp_all
  all_goals (rename_i heq hq hc; exact absurd heq.1.symm hq)

theorem doubleQuotes_cons (c : Char) (t : List Char) :
    doubleQuotes (c :: t) = (if c = '"' then ['"', '"'] else [c]) ++ doubleQuotes t := by
  simp [doubleQuotes]

/-- Parsing a fully quoted field: the closing quote ends the field and the
content accumulated so far (with doubled quotes undoubled) is pushed,
trimmed. -/
theorem parseCSVLineGo_quoted (s : List Char) : ∀ (cur : List Char) (values : List (List Char)),
    parseCSVLineGo (doubleQuotes s ++ ['"']) cur true values = values ++ [jsTrim (cur ++ s)] := by
  induction s with
  | nil => intro cur values; simp [doubleQuotes, parseCSVLineGo]
  | cons c t ih =>
    intro cur values
    rw [doubleQuotes_cons]
    by_cases hc : c = '"'
    · subst hc
      rw [if_pos rfl]
      show parseCSVLineGo ('"' :: '"' :: (doubleQuotes t ++ ['"'])) cur true values = _
      rw [parseCSVLineGo, ih]
      simp
    · rw [if_neg hc]
      show parseCSVLineGo (c :: (doubleQuotes t ++ ['"'])) cur true values = _
      rw [parseCSVLineGo_other c _ cur values hc, ih]
      simp

/-- Un-escaping an escaped field that was quoted yields the trimmed
original: the parser's `current.trim()` is the only deviation from
identity. -/
theorem parseCSVLine_escape_quoted (s : List Char) (h : needsQuoting s = true) :
    parseCSVLine (escapeCSVValue s) = [jsTrim s] := by
  rw [parseCSVLine, escapeCSVValue, if_pos h, List.cons_append, parseCSVLineGo_open,
    parseCSVLineGo_quoted]
  simp

/-- The metadata construction of `updateWorkOrderByNumber` always throws
the ReferenceError for the bare `Related_Project__r` identifier. -/
theorem buildWOMetadata_throws (md : Metadata) (won : String) (wo : WorkOrderRec) :
    buildWOMetadata md won wo = Except.error "Related_Project__r is not defined" := rfl

/-! ## Concrete data for witnesses -/

/-- A sample looked-up work order. -/
def woRecW : WorkOrderRec :=
  { id := "a0X000000000001"
    name := "Work Order 001"
    sassieId := some "12345"
    relatedProject := some
      { sassieSurveyName := some "Survey A"
        sassieSurveyId := some "S-1"
        videoQID := some "Q1"
        downloadVideoQID := some "Q2" } }

/-- A concrete environment: authentication succeeds, every PATCH resolves
with HTTP 204, and only work order number `WO-001` resolves to a record. -/
def envW : Env :=
  { ensureAuth := none
    patch := fun _ _ _ => CallResult.ok 204
    queryWO := fun won => if won = "WO-001" then QueryResult.ok [woRecW] else QueryResult.ok []
    now := "2025-10-12T00:00:00.000Z" }

/-- A fresh updater instance state. -/
def stEmpty : UpdaterState := { successfulUpdates := [], failedUpdates := [] }

/-! ## Claims -/

/-- C9: the JWT bearer authentication builds an RS256-signed assertion
whose claims are exactly issuer = the client identifier, subject = the
username, audience = the login URL, and an expiry set 300 seconds after
the time of issuance (`Math.floor(Date.now() / 1000)`). -/
theorem createJWT_claims (c : JWTAuthConfig) (nowMs : Nat) :
    (createJWTClaims c nowMs).iss = c.clientId ∧
    (createJWTClaims c nowMs).sub = c.username ∧
    (createJWTClaims c nowMs).aud = configLoginUrl c ∧
    (createJWTClaims c nowMs).exp = nowMs / 1000 + 300 ∧
    jwtSignAlgorithm = "RS256" :=
  ⟨rfl, rfl, rfl, rfl, rfl⟩

/-- C4: `updateRecord` returns a structured outcome on both success
(success true, echoed record id / object type / update data / metadata,
timestamp, HTTP status) and failure (success false, error payload), never
escaping an exception: exactly one outcome is appended, to the success
list exactly when the PATCH resolved, so no per-item failure can abort the
containing batch. -/
theorem updateRecord_structured_outcome (env : Env) (st : UpdaterState)
    (objectType recordId : String) (updateData : FieldMap) (metadata : Metadata) :
    let r := updateRecord env st objectType recordId updateData metadata
    r.1.objectType = objectType ∧
    r.1.recordId = some recordId ∧
    r.1.updateData = updateData ∧
    r.1.metadata = metadata ∧
    r.1.timestamp = env.now ∧
    ((r.1.success = true ∧
      r.1.error = none ∧
      (∃ s, env.patch objectType recordId updateData = CallResult.ok s ∧
        r.1.status = StatusVal.http s) ∧
      r.2.1.successfulUpdates = st.successfulUpdates ++ [r.1] ∧
      r.2.1.failedUpdates = st.failedUpdates) ∨
     (r.1.success = false ∧
      (∃ e, r.1.error = some e) ∧
      r.2.1.successfulUpdates = st.successfulUpdates ∧
      r.2.1.failedUpdates = st.failedUpdates ++ [r.1])) := by
  cases h : env.ensureAuth with
  | some msg => simp [updateRecord, h]
  | none =>
    cases hp : env.patch objectType recordId updateData with
    | ok s => simp [updateRecord, h, hp]
    | httpErr s d m => simp [updateRecord, h, hp]
    | netErr m => simp [updateRecord, h, hp]

/-- C2: in `updateWorkOrderByNumber`, whenever the lookup resolves a
record, the metadata construction dereferences the bare identifier
`Related_Project__r` (missing its `workOrder.` containing-object), the
resulting ReferenceError is caught by the surrounding handler, the update
is recorded in the failure list, and no PATCH call is issued. -/
theorem updateWorkOrderByNumber_nested_lookup_bug (env : Env) (st : UpdaterState)
    (workOrderNumber : String) (updateData : FieldMap) (metadata : Metadata)
    (workOrder : WorkOrderRec)
    (h : lookupWorkOrderByNumber env workOrderNumber = LookupOutcome.found workOrder) :
    let r := updateWorkOrderByNumber env st workOrderNumber updateData metadata
    r.1.success = false ∧
    r.1.error = some "Related_Project__r is not defined" ∧
    r.1.status = StatusVal.errorTag ∧
    r.2.1.failedUpdates = st.failedUpdates ++ [r.1] ∧
    r.2.1.successfulUpdates = st.successfulUpdates ∧
    r.2.2 = [] := by
  simp [updateWorkOrderByNumber, h, buildWOMetadata_throws]

/-- Witness for C2 at a concrete environment where the lookup of `WO-001`
resolves a record. -/
theorem updateWorkOrderByNumber_nested_lookup_bug_witness :
    lookupWorkOrderByNumber envW "WO-001" = LookupOutcome.found woRecW ∧
    (let r := updateWorkOrderByNumber envW stEmpty "WO-001" [("Status__c", "Complete")] []
     r.1.success = false ∧
     r.1.error = some "Related_Project__r is not defined" ∧
     r.1.status = StatusVal.errorTag ∧
     r.2.1.failedUpdates = stEmpty.failedUpdates ++ [r.1] ∧
     r.2.1.successfulUpdates = stEmpty.successfulUpdates ∧
     r.2.2 = []) :=
  ⟨rfl, updateWorkOrderByNumber_nested_lookup_bug envW stEmpty "WO-001"
    [("Status__c", "Complete")] [] woRecW rfl⟩

/-- C6: for a lookup key matching zero records (and an authenticated
session, so the lookup itself does not throw), `updateWorkOrderByNumber`
returns a `success:false` outcome with status `NOT_FOUND`, error
`"Work Order not found"` and a null record id, appends it to the failure
list, and issues no PATCH call. -/
theorem updateWorkOrderByNumber_not_found (env : Env) (st : UpdaterState)
    (workOrderNumber : String) (updateData : FieldMap) (metadata : Metadata)
    (hq : env.queryWO workOrderNumber = QueryResult.ok [])
    (ha : env.ensureAuth = none) :
    let r := updateWorkOrderByNumber env st workOrderNumber updateData metadata
    r.1.success = false ∧
    r.1.status = StatusVal.notFound ∧
    r.1.error = some "Work Order not found" ∧
    r.1.recordId = none ∧
    r.1.workOrderNumber = some workOrderNumber ∧
    r.2.1.failedUpdates = st.failedUpdates ++ [r.1] ∧
    r.2.1.successfulUpdates = st.successfulUpdates ∧
    r.2.2 = [] := by
  simp [updateWorkOrderByNumber, lookupWorkOrderByNumber, hq, ha]

/-- Witness for C6 at a concrete environment where `WO-404` matches zero
records. -/
theorem updateWorkOrderByNumber_not_found_witness :
    envW.queryWO "WO-404" = QueryResult.ok [] ∧ envW.ensureAuth = none ∧
    (let r := updateWorkOrderByNumber envW stEmpty "WO-404" [("Status__c", "Complete")] []
     r.1.success = false ∧
     r.1.status = StatusVal.notFound ∧
     r.1.error = some "Work Order not found" ∧
     r.1.recordId = none ∧
     r.1.workOrderNumber = some "WO-404" ∧
     r.2.1.failedUpdates = stEmpty.failedUpdates ++ [r.1] ∧
     r.2.1.successfulUpdates = stEmpty.successfulUpdates ∧
     r.2.2 = []) :=
  ⟨rfl, rfl, updateWorkOrderByNumber_not_found envW stEmpty "WO-404"
    [("Status__c", "Complete")] [] rfl rfl⟩

/-- C3 counterexample: the round trip does not reproduce the original
string for the field `" ,"` (space, comma), which contains a comma: the
parser's `current.trim()` strips the leading space, yielding `","`. -/
theorem csv_roundtrip_cex :
    ([' ', ','].contains ',' = true) ∧
    parseCSVLine (escapeCSVValue [' ', ',']) ≠ [[' ', ',']] ∧
    parseCSVLine (escapeCSVValue [' ', ',']) = [[',']] := by decide

/-- C3 as amended: for every string containing a comma, quote or newline
whose ends carry no JS whitespace (`trim` leaves it unchanged), escaping
with `escapeCSVValue` and un-escaping with `parseCSVLine` reproduces the
original exactly; in general the round trip yields the trimmed string
(see `parseCSVLine_escape_quoted`). -/
theorem csv_roundtrip_trimmed (s : List Char)
    (hs : s.contains ',' = true ∨ s.contains '"' = true ∨ s.contains '\n' = true)
    (ht : jsTrim s = s) :
    parseCSVLine (escapeCSVValue s) = [s] := by
  have h : needsQuoting s = true := by
    rcases hs with h | h | h <;> (simp [needsQuoting]; simp at h; tauto)
  rw [parseCSVLine_escape_quoted s h, ht]

/-- Witness for C3 (amended) at the field `"a,b"`. -/
theorem csv_roundtrip_trimmed_witness :
    (['a', ',', 'b'].contains ',' = true ∨ ['a', ',', 'b'].contains '"' = true ∨
      ['a', ',', 'b'].contains '\n' = true) ∧
    jsTrim ['a', ',', 'b'] = ['a', ',', 'b'] ∧
    parseCSVLine (escapeCSVValue ['a', ',', 'b']) = [['a', ',', 'b']] :=
  ⟨Or.inl (by decide), by decide,
    csv_roundtrip_trimmed ['a', ',', 'b'] (Or.inl (by decide)) (by decide)⟩

/-- C7 counterexample: for the empty input list the source computes
`(0 / 0 * 100).toFixed(2) + "%"`, i.e. the `NaN` value, not a well-defined
percentage. -/
theorem processUpdates_empty_successRate_cex :
    (processUpdates envW stEmpty [] { batchSize := none, delayMs := none }).1.successRate
      = SuccessRate.nan := by
  simp [processUpdates, processBatchesGo, mkResults, successRateOf]

/-- C7 as amended: for the empty input list the batch processor returns
zero outcomes (totalProcessed 0, empty success and failure lists, no
events), but the computed success rate is JS `NaN` (from `0/0 * 100`)
rather than a well-defined percentage. -/
theorem processUpdates_empty_result (env : Env) (st : UpdaterState)
    (options : ProcessOptions) :
    let r := processUpdates env st [] options
    r.1.totalProcessed = 0 ∧
    r.1.successful = 0 ∧
    r.1.failed = 0 ∧
    r.1.successfulUpdates = [] ∧
    r.1.failedUpdates = [] ∧
    r.1.successRate = SuccessRate.nan ∧
    r.2.2 = [] := by
  simp [processUpdates, processBatchesGo, mkResults, successRateOf]

/-- C10: both batch processors reset the instance accumulator arrays at
the start of every call, so the returned results are independent of any
outcomes accumulated by earlier calls on the same instance (also without
an explicit `clearHistory`), and the result lists are exactly the final
accumulators of the current call. -/
theorem processUpdates_reset_independent (env : Env) (st1 st2 : UpdaterState)
    (l : List UpdateReq) (wl : List WOUpdateReq) (options : ProcessOptions) :
    processUpdates env st1 l options = processUpdates env st2 l options ∧
    processUpdates env st1 l options = processUpdates env (clearHistory st1) l options ∧
    processWorkOrderUpdates env st1 wl options = processWorkOrderUpdates env st2 wl options ∧
    processWorkOrderUpdates env st1 wl options
      = processWorkOrderUpdates env (clearHistory st1) wl options ∧
    (processUpdates env st1 l options).1.successfulUpdates
      = (processUpdates env st1 l options).2.1.successfulUpdates ∧
    (processUpdates env st1 l options).1.failedUpdates
      = (processUpdates env st1 l options).2.1.failedUpdates :=
  ⟨rfl, rfl, rfl, rfl, rfl, rfl⟩

/-- C8 counterexample: (a) for the empty record list `arrayToCSV` emits
the empty string, not a header row; (b) a field consisting of a carriage
return alone contains no comma, quote or newline, yet is emitted quoted,
so quoting does not happen "exactly when" the claim's three characters
occur. -/
theorem arrayToCSV_cex :
    arrayToCSV [] (some [['c']]) = [] ∧
    (['\r'].contains ',' = false ∧ ['\r'].contains '"' = false ∧
      ['\r'].contains '\n' = false) ∧
    escapeCSVValue ['\r'] = ['"', '\r', '"'] := by decide

/-- C8 as amended: for every nonempty record list, `arrayToCSV` emits one
header row followed by exactly one row per record (rows joined by a
newline); a null or absent field renders as the empty string and a nested
object as its JSON serialization; a field is wrapped in quotes with
internal quotes doubled exactly when it contains a comma, quote, newline
or carriage return, and emitted unquoted otherwise. -/
theorem arrayToCSV_shape (first : CsvRow) (rest : List CsvRow)
    (columns : Option (List (List Char))) :
    let data := first :: rest
    let headers := match columns with
      | some cs => cs
      | none => first.map Prod.fst
    arrayToCSV data columns =
      List.intercalate ['\n']
        (List.intercalate [','] (headers.map escapeCSVValue) :: data.map (csvRowOf headers)) ∧
    (data.map (csvRowOf headers)).length = data.length ∧
    (∀ row, csvRowOf headers row =
      List.intercalate [','] (headers.map fun h => escapeCSVValue (cellToString (rowGet row h)))) ∧
    cellToString CellValue.null = [] ∧
    cellToString CellValue.undef = [] ∧
    (∀ row key, row.lookup key = none → rowGet row key = CellValue.undef) ∧
    (∀ j, cellToString (CellValue.obj j) = j) ∧
    (∀ v, (escapeCSVValue v = '"' :: doubleQuotes v ++ ['"'] ∧ needsQuoting v = true) ∨
          (escapeCSVValue v = v ∧ needsQuoting v = false)) ∧
    (∀ v, needsQuoting v =
      (v.contains ',' || v.contains '"' || v.contains '\n' || v.contains '\r')) := by
  refine ⟨rfl, by simp, fun row => rfl, rfl, rfl, ?_, fun j => rfl, ?_, fun v => rfl⟩
  · intro row key hk
    simp [rowGet, hk]
  · intro v
    by_cases h : needsQuoting v = true
    · exact Or.inl ⟨by rw [escapeCSVValue, if_pos h], h⟩
    · refine Or.inr ⟨by rw [escapeCSVValue, if_neg h], by simpa using h⟩

/-! ## Partition of outcomes (machinery for C1) -/

/-- The identifying data of a request echoed into its outcome. -/
abbrev EchoKey := String × Option String × Option String × FieldMap × Metadata

/-- The echo carried by an outcome. -/
def outcomeEcho (o : Outcome) : EchoKey :=
  (o.objectType, o.workOrderNumber, o.recordId, o.updateData, o.metadata)

/-- The echo a by-id request should produce. -/
def reqEcho (r : UpdateReq) : EchoKey :=
  (r.objectType, none, some r.recordId, r.updateData, r.metadata)

/-- The echo a by-work-order-number request should produce. -/
def woReqEcho (r : WOUpdateReq) : EchoKey :=
  ("Work_Order__c", some r.workOrderNumber, none, r.updateData, r.metadata)

/-- An item handler pushes exactly one outcome, echoing its request, onto
exactly one of the two accumulator lists. -/
def PushesOne (f : α → UpdaterState → Outcome × UpdaterState × List Event)
    (key : α → EchoKey) : Prop :=
  ∀ r st,
    outcomeEcho (f r st).1 = key r ∧
    (((f r st).2.1.successfulUpdates = st.successfulUpdates ++ [(f r st).1] ∧
      (f r st).2.1.failedUpdates = st.failedUpdates) ∨
     ((f r st).2.1.successfulUpdates = st.successfulUpdates ∧
      (f r st).2.1.failedUpdates = st.failedUpdates ++ [(f r st).1]))

theorem updateRecord_pushesOne (env : Env) :
    PushesOne (fun u s => updateRecord env s u.objectType u.recordId u.updateData u.metadata)
      reqEcho := by
  intro r st
  cases h : env.ensureAuth with
  | some m => simp [updateRecord, h, outcomeEcho, reqEcho]
  | none =>
    cases hp : env.patch r.objectType r.recordId r.updateData with
    | ok s => simp [updateRecord, h, hp, outcomeEcho, reqEcho]
    | httpErr s d m => simp [updateRecord, h, hp, outcomeEcho, reqEcho]
    | netErr m => simp [updateRecord, h, hp, outcomeEcho, reqEcho]

theorem updateWorkOrderByNumber_pushesOne (env : Env) :
    PushesOne
      (fun u s => updateWorkOrderByNumber env s u.workOrderNumber u.updateData u.metadata)
      woReqEcho := by
  intro r st
  cases h : lookupWorkOrderByNumber env r.workOrderNumber with
  | found wo =>
      simp [updateWorkOrderByNumber, h, buildWOMetadata_throws, outcomeEcho, woReqEcho]
  | notFoundNull => simp [updateWorkOrderByNumber, h, outcomeEcho, woReqEcho]
  | threwHttp s d m => simp [updateWorkOrderByNumber, h, outcomeEcho, woReqEcho]
  | threwNet m => simp [updateWorkOrderByNumber, h, outcomeEcho, woReqEcho]

/-- The multiset of echoes accumulated over one group. -/
theorem processGroup_partition (f : α → UpdaterState → Outcome × UpdaterState × List Event)
    (key : α → EchoKey) (hf : PushesOne f key) :
    ∀ (g : List α) (st : UpdaterState),
      (((processGroup f g st).1.successfulUpdates.map outcomeEcho : Multiset EchoKey) +
        ((processGroup f g st).1.failedUpdates.map outcomeEcho : Multiset EchoKey)) =
      ((st.successfulUpdates.map outcomeEcho : Multiset EchoKey) +
        (st.failedUpdates.map outcomeEcho : Multiset EchoKey)) +
        (g.map key : Multiset EchoKey)
  | [], st => by simp [processGroup]
  | r :: rest, st => by
    have hstep := hf r st
    have ih := processGroup_partition f key hf rest (f r st).2.1
    simp only [processGroup]
    rw [ih]
    rcases hstep.2 with ⟨hs, hfl⟩ | ⟨hs, hfl⟩ <;>
      rw [hs, hfl] <;>
      simp only [List.map_append, List.map_cons, List.map_nil, ← Multiset.coe_add,
        Multiset.coe_singleton, hstep.1, ← Multiset.cons_coe, ← Multiset.singleton_add] <;>
      abel

/-- The multiset of echoes accumulated over the whole batch loop. -/
theorem processBatchesGo_partition (f : α → UpdaterState → Outcome × UpdaterState × List Event)
    (key : α → EchoKey) (hf : PushesOne f key) (batchSize delayMs : Nat) :
    ∀ (n : Nat) (l : List α), l.length ≤ n → ∀ (st : UpdaterState),
      (((processBatchesGo f batchSize delayMs l st).1.successfulUpdates.map outcomeEcho :
          Multiset EchoKey) +
        ((processBatchesGo f batchSize delayMs l st).1.failedUpdates.map outcomeEcho :
          Multiset EchoKey)) =
      ((st.successfulUpdates.map outcomeEcho : Multiset EchoKey) +
        (st.failedUpdates.map outcomeEcho : Multiset EchoKey)) +
        (l.map key : Multiset EchoKey) := by
  intro n
  induction n with
  | zero =>
    intro l hl st
    have : l = [] := List.eq_nil_of_length_eq_zero (Nat.le_zero.mp hl)
    subst this
    simp [processBatchesGo]
  | succ n ih =>
    intro l hl st
    match l with
    | [] => simp [processBatchesGo]
    | r :: rest =>
      have hlen : (rest.drop (batchSize - 1)).length ≤ n := by
        have := List.length_drop (batchSize - 1) rest
        simp only [List.length_cons] at hl
        omega
      rw [processBatchesGo]
      rw [ih (rest.drop (batchSize - 1)) hlen]
      rw [processGroup_partition f key hf]
      have hsplit : ((r :: rest.take (batchSize - 1)) ++ rest.drop (batchSize - 1)) = r :: rest := by
        simp [List.take_append_drop]
      calc _ = ((st.successfulUpdates.map outcomeEcho : Multiset EchoKey) +
                (st.failedUpdates.map outcomeEcho : Multiset EchoKey)) +
               (((r :: rest.take (batchSize - 1)) ++ rest.drop (batchSize - 1)).map key :
                 Multiset EchoKey) := by
              rw [List.map_append, ← Multiset.coe_add, add_assoc]
        _ = _ := by rw [hsplit]

/-- C1: for every input list and positive batch size, each batch
processor (`processUpdates` and `processWorkOrderUpdates`) produces
exactly one outcome per request: `totalProcessed` is the input length,
`successful + failed` is the input length, and the multiset of request
echoes carried by the success and failure lists together is exactly the
multiset of input requests — no duplicates, no omissions, each outcome in
exactly one list. -/
theorem batch_outcome_partition (env : Env) (st : UpdaterState)
    (l : List UpdateReq) (wl : List WOUpdateReq) (options : ProcessOptions)
    (_hbs : 0 < optBatchSize options) :
    ((processUpdates env st l options).1.totalProcessed = l.length ∧
     (processUpdates env st l options).1.successful
       + (processUpdates env st l options).1.failed = l.length ∧
     (((processUpdates env st l options).1.successfulUpdates.map outcomeEcho :
         Multiset EchoKey) +
       ((processUpdates env st l options).1.failedUpdates.map outcomeEcho :
         Multiset EchoKey))
       = (l.map reqEcho : Multiset EchoKey)) ∧
    ((processWorkOrderUpdates env st wl options).1.totalProcessed = wl.length ∧
     (processWorkOrderUpdates env st wl options).1.successful
       + (processWorkOrderUpdates env st wl options).1.failed = wl.length ∧
     (((processWorkOrderUpdates env st wl options).1.successfulUpdates.map outcomeEcho :
         Multiset EchoKey) +
       ((processWorkOrderUpdates env st wl options).1.failedUpdates.map outcomeEcho :
         Multiset EchoKey))
       = (wl.map woReqEcho : Multiset EchoKey)) := by
  have h1 := processBatchesGo_partition _ reqEcho (updateRecord_pushesOne env)
    (optBatchSize options) (optDelayMs options) l.length l le_rfl
    { successfulUpdates := [], failedUpdates := [] }
  have h2 := processBatchesGo_partition _ woReqEcho (updateWorkOrderByNumber_pushesOne env)
    (optBatchSize options) (optDelayMs options) wl.length wl le_rfl
    { successfulUpdates := [], failedUpdates := [] }
  simp only [List.map_nil, Multiset.coe_nil, add_zero, zero_add] at h1 h2
  have hc1 := congrArg Multiset.card h1
  have hc2 := congrArg Multiset.card h2
  simp only [Multiset.card_add, Multiset.coe_card, List.length_map] at hc1 hc2
  exact ⟨⟨rfl, hc1, h1⟩, ⟨rfl, hc2, h2⟩⟩

/-- Witness for C1 at a concrete environment, two by-id requests, one
by-number request, and the default options (batch size 5). -/
theorem batch_outcome_partition_witness :
    0 < optBatchSize { batchSize := none, delayMs := none } ∧
    (let l : List UpdateReq :=
      [{ objectType := "Account", recordId := "001xx", updateData := [("Name", "Acme")],
         metadata := [] },
       { objectType := "Contact", recordId := "003xx", updateData := [],
         metadata := [("source", some "csv")] }]
     let wl : List WOUpdateReq :=
      [{ workOrderNumber := "WO-001", updateData := [("Status__c", "Complete")],
         metadata := [] }]
     let options : ProcessOptions := { batchSize := none, delayMs := none }
     ((processUpdates envW stEmpty l options).1.totalProcessed = l.length ∧
      (processUpdates envW stEmpty l options).1.successful
        + (processUpdates envW stEmpty l options).1.failed = l.length ∧
      (((processUpdates envW stEmpty l options).1.successfulUpdates.map outcomeEcho :
          Multiset EchoKey) +
        ((processUpdates envW stEmpty l options).1.failedUpdates.map outcomeEcho :
          Multiset EchoKey))
        = (l.map reqEcho : Multiset EchoKey)) ∧
     ((processWorkOrderUpdates envW stEmpty wl options).1.totalProcessed = wl.length ∧
      (processWorkOrderUpdates envW stEmpty wl options).1.successful
        + (processWorkOrderUpdates envW stEmpty wl options).1.failed = wl.length ∧
      (((processWorkOrderUpdates envW stEmpty wl options).1.successfulUpdates.map outcomeEcho :
          Multiset EchoKey) +
        ((processWorkOrderUpdates envW stEmpty wl options).1.failedUpdates.map outcomeEcho :
          Multiset EchoKey))
        = (wl.map woReqEcho : Multiset EchoKey))) :=
  ⟨by decide,
   batch_outcome_partition envW stEmpty _ _ { batchSize := none, delayMs := none } (by decide)⟩

/-! ## Trace structure of the batch loop (machinery for C5) -/

/-- An item handler's emitted events depend only on the request (not on
the accumulator state). -/
def TraceIndep (f : α → UpdaterState → Outcome × UpdaterState × List Event)
    (ev : α → List Event) : Prop :=
  ∀ r st, (f r st).2.2 = ev r

theorem updateRecord_traceIndep (env : Env) :
    TraceIndep
      (fun (u : UpdateReq) (s : UpdaterState) =>
        updateRecord env s u.objectType u.recordId u.updateData u.metadata)
      (fun (u : UpdateReq) =>
        updateRecordEvents env u.objectType u.recordId u.updateData) := by
  intro r st
  cases h : env.ensureAuth with
  | some m => simp [updateRecord, updateRecordEvents, h]
  | none =>
    cases hp : env.patch r.objectType r.recordId r.updateData <;>
      simp [updateRecord, updateRecordEvents, h, hp]

theorem processGroup_trace (f : α → UpdaterState → Outcome × UpdaterState × List Event)
    (ev : α → List Event) (hf : TraceIndep f ev) :
    ∀ (g : List α) (st : UpdaterState), (processGroup f g st).2 = (g.map ev).flatten
  | [], st => by simp [processGroup]
  | r :: rest, st => by
    simp only [processGroup]
    rw [processGroup_trace f ev hf rest, hf r st]
    simp

theorem processBatchesGo_trace (f : α → UpdaterState → Outcome × UpdaterState × List Event)
    (ev : α → List Event) (hf : TraceIndep f ev) (batchSize delayMs : Nat)
    (hd : 0 < delayMs) :
    ∀ (n : Nat) (l : List α), l.length ≤ n → ∀ (st : UpdaterState),
      (processBatchesGo f batchSize delayMs l st).2
        = withDelays delayMs ((chunksOf batchSize l).map fun g => (g.map ev).flatten) := by
  intro n
  induction n with
  | zero =>
    intro l hl st
    have : l = [] := List.eq_nil_of_length_eq_zero (Nat.le_zero.mp hl)
    subst this
    simp [processBatchesGo, chunksOf, withDelays]
  | succ n ih =>
    intro l hl st
    match l with
    | [] => simp [processBatchesGo, chunksOf, withDelays]
    | r :: rest =>
      have hlen : (rest.drop (batchSize - 1)).length ≤ n := by
        have := List.length_drop (batchSize - 1) rest
        simp only [List.length_cons] at hl
        omega
      rw [processBatchesGo, chunksOf]
      rw [processGroup_trace f ev hf]
      rw [ih (rest.drop (batchSize - 1)) hlen]
      rcases hrem : rest.drop (batchSize - 1) with _ | ⟨r2, rest2⟩
      · simp [withDelays, chunksOf]
      · rw [chunksOf]
        simp [withDelays, hd]

/-- The groups the loop forms cover the input exactly. -/
theorem chunksOf_flatten (batchSize : Nat) :
    ∀ (n : Nat) (l : List α), l.length ≤ n → (chunksOf batchSize l).flatten = l := by
  intro n
  induction n with
  | zero =>
    intro l hl
    have : l = [] := List.eq_nil_of_length_eq_zero (Nat.le_zero.mp hl)
    subst this
    simp [chunksOf]
  | succ n ih =>
    intro l hl
    match l with
    | [] => simp [chunksOf]
    | r :: rest =>
      have hlen : (rest.drop (batchSize - 1)).length ≤ n := by
        have := List.length_drop (batchSize - 1) rest
        simp only [List.length_cons] at hl
        omega
      rw [chunksOf]
      simp [ih (rest.drop (batchSize - 1)) hlen, List.take_append_drop]

/-- Every group is nonempty and at most the batch size long. -/
theorem chunksOf_sizes (batchSize : Nat) (hbs : 0 < batchSize) :
    ∀ (n : Nat) (l : List α), l.length ≤ n →
      ∀ g ∈ chunksOf batchSize l, g ≠ [] ∧ g.length ≤ batchSize := by
  intro n
  induction n with
  | zero =>
    intro l hl
    have : l = [] := List.eq_nil_of_length_eq_zero (Nat.le_zero.mp hl)
    subst this
    simp [chunksOf]
  | succ n ih =>
    intro l hl
    match l with
    | [] => simp [chunksOf]
    | r :: rest =>
      have hlen : (rest.drop (batchSize - 1)).length ≤ n := by
        have := List.length_drop (batchSize - 1) rest
        simp only [List.length_cons] at hl
        omega
      intro g hg
      rw [chunksOf] at hg
      rcases List.mem_cons.mp hg with hg | hg
      · subst hg
        refine ⟨List.cons_ne_nil _ _, ?_⟩
        simp only [List.length_cons, List.length_take]
        omega
      · exact ih (rest.drop (batchSize - 1)) hlen g hg

/-- C5: the batch processor partitions the input into contiguous groups
of the configured batch size (each group nonempty and of at most that
size, the groups concatenating back to the input), issues the updates of
each group between consecutive group boundaries, and emits exactly one
delay of the configured duration after each group except the last.  (The
in-group concurrency of `Promise.all` is modelled by in-order sequencing
within the group segment; the group boundary is the ordering guarantee
captured here.) -/
theorem processUpdates_batching_trace (env : Env) (st : UpdaterState)
    (l : List UpdateReq) (options : ProcessOptions)
    (hbs : 0 < optBatchSize options) (hd : 0 < optDelayMs options) :
    (chunksOf (optBatchSize options) l).flatten = l ∧
    (∀ g ∈ chunksOf (optBatchSize options) l, g ≠ [] ∧ g.length ≤ optBatchSize options) ∧
    (processUpdates env st l options).2.2 =
      withDelays (optDelayMs options)
        ((chunksOf (optBatchSize options) l).map fun g =>
          (g.map fun u => updateRecordEvents env u.objectType u.recordId u.updateData).flatten) :=
  ⟨chunksOf_flatten (optBatchSize options) l.length l le_rfl,
   chunksOf_sizes (optBatchSize options) hbs l.length l le_rfl,
   processBatchesGo_trace _ _ (updateRecord_traceIndep env)
     (optBatchSize options) (optDelayMs options) hd l.length l le_rfl
     { successfulUpdates := [], failedUpdates := [] }⟩

/-- Witness for C5 at a concrete environment, six requests and the
default options (batch size 5, delay 100 ms). -/
theorem processUpdates_batching_trace_witness :
    0 < optBatchSize { batchSize := none, delayMs := none } ∧
    0 < optDelayMs { batchSize := none, delayMs := none } ∧
    (let l : List UpdateReq :=
      [{ objectType := "Account", recordId := "001", updateData := [], metadata := [] },
       { objectType := "Account", recordId := "002", updateData := [], metadata := [] },
       { objectType := "Account", recordId := "003", updateData := [], metadata := [] },
       { objectType := "Account", recordId := "004", updateData := [], metadata := [] },
       { objectType := "Account", recordId := "005", updateData := [], metadata := [] },
       { objectType := "Account", recordId := "006", updateData := [], metadata := [] }]
     let options : ProcessOptions := { batchSize := none, delayMs := none }
     (chunksOf (optBatchSize options) l).flatten = l ∧
     (∀ g ∈ chunksOf (optBatchSize options) l, g ≠ [] ∧ g.length ≤ optBatchSize options) ∧
     (processUpdates envW stEmpty l options).2.2 =
       withDelays (optDelayMs options)
         ((chunksOf (optBatchSize options) l).map fun g =>
           (g.map fun u =>
             updateRecordEvents envW u.objectType u.recordId u.updateData).flatten)) :=
  ⟨by decide, by decide,
   processUpdates_batching_trace envW stEmpty _ { batchSize := none, delayMs := none }
     (by decide) (by decide)⟩

end SalesforceUpdaterGCP
